import Mathlib

/-!
Verification development for the `custom_components/immich` Home Assistant
integration: a shallow embedding of its data model and operations, with
theorems settling the specified properties.

Embedding conventions:
* Python strings are `String`, byte strings are `List Nat` (the empty list is
  the falsy `b""`), timestamps are `Int` seconds.
* Raised exceptions are modelled by `Option`/dedicated result constructors.
* `random.choice` / `random` streams are modelled by externally supplied
  index streams, so every claim is settled for all possible random draws.
* Values from `const.py` (absent from the sources) are either abstracted as
  parameters or, where a concrete value is needed, modelled from the spec and
  marked as such.
-/

/-- Raw value of the EXIF `orientation` field as seen by Python `int(...)`:
either it parses to an integer, or it is malformed and `int()` raises. -/
inductive ExifValue where
  | int (n : Int)
  | malformed
deriving DecidableEq, Repr

/-- Embeds `BaseImmichImage._is_portrait` (image.py lines 131-140): parse the
orientation with `int(...)`, a parse failure being caught and replaced by 0;
orientation codes ≤ 4 compare width < height, codes > 4 compare width >
height. Pixel dimensions are naturals (the source converts them with
`float(...)`, which is exact and order-preserving on EXIF pixel counts). -/
def is_portrait (w h : Nat) (orientationValue : ExifValue) : Bool :=
  let code : Int :=
    match orientationValue with
    | ExifValue.int n => n
    | ExifValue.malformed => 0
  if code ≤ 4 then w < h else w > h

/-- C6: the classifier returns portrait exactly when
(code ≤ 4 and w < h) or (code > 4 and w > h); an orientation value that does
not parse as an integer is treated as code 0 (the embedding is total, i.e. the
bare `except` branch never lets an exception escape). -/
theorem c6_is_portrait_classification :
    (∀ (w h : Nat) (c : Int),
      is_portrait w h (ExifValue.int c) = true ↔
        ((c ≤ 4 ∧ w < h) ∨ (4 < c ∧ h < w))) ∧
    (∀ (w h : Nat),
      is_portrait w h ExifValue.malformed = is_portrait w h (ExifValue.int 0)) := by
  constructor
  · intro w h c
    by_cases hc : c ≤ 4
    · simp [is_portrait, hc]
    · simp [is_portrait, hc]
      omega
  · intro w h
    rfl

/-- Embeds `ImmichCoordinator.get_device_id` (coordinator.py lines 69-73):
`'-'.join([entry.get('id'), str(entry.get('created'))])`, with `createdStr`
standing for the Python string rendering of the `created` timestamp. -/
def get_device_id (entryId : String) (createdStr : String) : String :=
  entryId ++ "-" ++ createdStr

/-- Helper: splitting a list at an occurrence of `c` that is known not to
occur in the two right-hand parts determines both parts uniquely. -/
theorem append_cons_eq_append_cons {α : Type} {c : α} :
    ∀ (xs us ys vs : List α), xs ++ c :: ys = us ++ c :: vs →
      c ∉ ys → c ∉ vs → xs = us ∧ ys = vs := by
  intro xs
  induction xs with
  | nil =>
    intro us ys vs h hy hv
    cases us with
    | nil =>
      simp only [List.nil_append] at h
      exact ⟨rfl, by injection h⟩
    | cons u us' =>
      simp only [List.nil_append, List.cons_append] at h
      injection h with h1 h2
      subst h1
      exfalso
      apply hy
      rw [h2]
      exact List.mem_append_right us' (List.mem_cons_self c vs)
  | cons x xs' ih =>
    intro us ys vs h hy hv
    cases us with
    | nil =>
      simp only [List.nil_append, List.cons_append] at h
      injection h with h1 h2
      subst h1
      exfalso
      apply hv
      rw [← h2]
      exact List.mem_append_right xs' (List.mem_cons_self x ys)
    | cons u us' =>
      simp only [List.cons_append] at h
      injection h with h1 h2
      obtain ⟨hxs, hys⟩ := ih us' ys vs h2 hy hv
      exact ⟨by rw [h1, hxs], hys⟩

/-- C8: `get_device_id` is a pure function of `(id, created)` — identical
inputs give identical strings — and is injective on pairs as long as the
rendering of `created` contains no `-` (true of `str()` of the nonnegative
float timestamps produced by the config flow). -/
theorem c8_device_key_injective (id1 cs1 id2 cs2 : String)
    (h1 : '-' ∉ cs1.data) (h2 : '-' ∉ cs2.data) :
    get_device_id id1 cs1 = get_device_id id2 cs2 ↔ (id1 = id2 ∧ cs1 = cs2) := by
  constructor
  · intro h
    have hd : id1.data ++ '-' :: cs1.data = id2.data ++ '-' :: cs2.data := by
      have := congrArg String.data h
      simpa [get_device_id, String.data_append] using this
    obtain ⟨ha, hb⟩ := append_cons_eq_append_cons id1.data id2.data cs1.data cs2.data hd h1 h2
    constructor
    · cases id1; cases id2; exact congrArg String.mk (by simpa using ha)
    · cases cs1; cases cs2; exact congrArg String.mk (by simpa using hb)
  · rintro ⟨rfl, rfl⟩
    rfl

/-- Witness for C8 at concrete inputs: an id containing a dash and a
dash-free timestamp rendering. -/
theorem c8_device_key_injective_witness :
    get_device_id "a-b" "17.5" = get_device_id "a-b" "17.5" ↔
      ("a-b" = "a-b" ∧ "17.5" = "17.5") :=
  c8_device_key_injective "a-b" "17.5" "a-b" "17.5" (by decide) (by decide)

/-- Embeds the restore-on-add conditional shared verbatim by the three select
entities (`async_added_to_hass`, select.py lines 91-99, 139-147, 187-195):
`if not state or state.state not in OPTIONS: set(DEFAULT) else set(state.state)`.
`none` models a missing persisted state. -/
def restore_select (options : List String) (dflt : String)
    (state : Option String) : String :=
  match state with
  | none => dflt
  | some s => if s ∈ options then s else dflt

/-- C9: on first activation after a restart, a missing persisted state or a
persisted value outside the currently valid option list yields the documented
default, and a valid persisted value is adopted unchanged; a stale
out-of-set value is never adopted. -/
theorem c9_restore_select_default :
    (∀ (options : List String) (dflt : String),
        restore_select options dflt none = dflt) ∧
    (∀ (options : List String) (dflt s : String), s ∉ options →
        restore_select options dflt (some s) = dflt) ∧
    (∀ (options : List String) (dflt s : String), s ∈ options →
        restore_select options dflt (some s) = s) := by
  refine ⟨fun _ _ => rfl, fun options dflt s hs => ?_, fun options dflt s hs => ?_⟩
  · simp [restore_select, hs]
  · simp [restore_select, hs]

/-- Modelled from the spec: the thumbnail-mode option list and default from
the missing `const.py` (§4.3: `original` | `thumbnail` |
`thumbnail-with-fallback`, default `thumbnail-with-fallback`). -/
def SETTING_THUMBNAILS_MODE_OPTIONS : List String :=
  ["original", "thumbnail", "thumbnail-with-fallback"]

/-- Modelled from the spec: the documented default thumbnail mode. -/
def SETTING_THUMBNAILS_MODE_DEFAULT : String := "thumbnail-with-fallback"

/-- Witness for C9: restoring a stale value not among the current options
yields the documented default. -/
theorem c9_restore_select_default_witness :
    restore_select SETTING_THUMBNAILS_MODE_OPTIONS SETTING_THUMBNAILS_MODE_DEFAULT
      (some "stale-mode") = SETTING_THUMBNAILS_MODE_DEFAULT :=
  c9_restore_select_default.2.1 SETTING_THUMBNAILS_MODE_OPTIONS
    SETTING_THUMBNAILS_MODE_DEFAULT "stale-mode" (by decide)

/-- EXIF block of an asset as the source reads it (`exifInfo` dict): each
field is `none` when the key is missing. A present-but-empty dict is
behaviourally identical to a dict with all three keys missing, so it is
represented by `some` of a record whose fields are all `none`. -/
structure ExifInfo where
  exifImageWidth : Option Nat
  exifImageHeight : Option Nat
  orientation : Option ExifValue
deriving DecidableEq, Repr

/-- Asset summary returned by the hub listing calls: an id plus an optional
EXIF block (`none` models a missing or null `exifInfo` key, on which a
Python attribute access raises). -/
structure AssetSummary where
  id : String
  exifInfo : Option ExifInfo
deriving DecidableEq, Repr

/-- Python `exif.get("exifImageWidth", 0)`: a missing key yields the falsy 0,
which the source treats the same as a stored 0. -/
def widthD (e : ExifInfo) : Nat := e.exifImageWidth.getD 0

/-- Python `exif.get("exifImageHeight", 0)`. -/
def heightD (e : ExifInfo) : Nat := e.exifImageHeight.getD 0

/-- Python `exif.get("orientation", "0")`: a missing key defaults to the
string "0", which parses to orientation code 0. -/
def orientD (e : ExifInfo) : ExifValue := e.orientation.getD (ExifValue.int 0)

/-- Truthiness test deciding whether an asset has usable EXIF dimensions, as
in the skip conditions of the `_refresh_available_asset_ids` variants
(image.py 237-242, 335-339, 370-374, 405-409): the EXIF block, the width and
the height must all be truthy. -/
def usableDims (a : AssetSummary) : Bool :=
  match a.exifInfo with
  | none => false
  | some e => widthD e != 0 && heightD e != 0

/-- Orientation classification of an asset, as applied by the refresh
variants: `_is_portrait((float(width), float(height)), orientation)`.
Only meaningful when `usableDims` holds. -/
def assetPortrait (a : AssetSummary) : Bool :=
  match a.exifInfo with
  | none => false
  | some e => is_portrait (widthD e) (heightD e) (orientD e)

/-- Candidate cache of an image entity: the three asset-id lists
`_cached_available_asset_id` (all), `..._portrait` and `..._landscape`. -/
structure Pool where
  all : List String
  portrait : List String
  landscape : List String
deriving DecidableEq, Repr

/-- Embeds `ImmichImageFavorite._refresh_available_asset_ids`
(image.py lines 230-253): every asset id is appended to the unfiltered list;
ids with usable EXIF dimensions are additionally appended to exactly one of
the portrait/landscape lists. The favorite variant guards the EXIF block with
`not image.get("exifInfo") or ...`, so it never raises. -/
def refresh_favorite : List AssetSummary → Pool
  | [] => { all := [], portrait := [], landscape := [] }
  | a :: rest =>
    let p := refresh_favorite rest
    if usableDims a then
      if assetPortrait a then
        { all := a.id :: p.all, portrait := a.id :: p.portrait,
          landscape := p.landscape }
      else
        { all := a.id :: p.all, portrait := p.portrait,
          landscape := a.id :: p.landscape }
    else
      { all := a.id :: p.all, portrait := p.portrait, landscape := p.landscape }

/-- Embeds the shared body of `ImmichImageAlbum._refresh_available_asset_ids`
(image.py 363-385), `ImmichPersonAlbum._refresh_available_asset_ids`
(398-420) and the partitioning part of
`ImmichImageRandom._refresh_available_asset_ids` (333-350): these variants
call `image.get("exifInfo").get(...)` without guarding the block, so an asset
whose `exifInfo` is missing raises an AttributeError (`none` result, caches
left untouched); otherwise the loop behaves exactly like the favorite
variant (a width/height default of `0` versus `None` is equally falsy). -/
def refresh_checked : List AssetSummary → Option Pool
  | [] => some { all := [], portrait := [], landscape := [] }
  | a :: rest =>
    match a.exifInfo with
    | none => none
    | some e =>
      (refresh_checked rest).map fun p =>
        if widthD e != 0 && heightD e != 0 then
          if is_portrait (widthD e) (heightD e) (orientD e) then
            { all := a.id :: p.all, portrait := a.id :: p.portrait,
              landscape := p.landscape }
          else
            { all := a.id :: p.all, portrait := p.portrait,
              landscape := a.id :: p.landscape }
        else
          { all := a.id :: p.all, portrait := p.portrait,
            landscape := p.landscape }

/-- `ImmichImageAlbum._refresh_available_asset_ids` (image.py 363-385). -/
def refresh_album (listing : List AssetSummary) : Option Pool :=
  refresh_checked listing

/-- `ImmichPersonAlbum._refresh_available_asset_ids` (image.py 398-420). -/
def refresh_person (listing : List AssetSummary) : Option Pool :=
  refresh_checked listing

/-- Partitioning part of `ImmichImageRandom._refresh_available_asset_ids`
(image.py 333-350); the preceding asset-stats/count clipping only selects how
many assets the hub returns and does not affect the cache shape. -/
def refresh_random (listing : List AssetSummary) : Option Pool :=
  refresh_checked listing

theorem refresh_favorite_all (l : List AssetSummary) :
    (refresh_favorite l).all = l.map (fun a => a.id) := by
  induction l with
  | nil => rfl
  | cons a rest ih =>
    by_cases h1 : usableDims a
    · by_cases h2 : assetPortrait a
      · simp [refresh_favorite, h1, h2, ih]
      · simp [refresh_favorite, h1, h2, ih]
    · simp [refresh_favorite, h1, ih]

theorem refresh_favorite_portrait (l : List AssetSummary) :
    (refresh_favorite l).portrait =
      (l.filter (fun a => usableDims a && assetPortrait a)).map (fun a => a.id) := by
  induction l with
  | nil => rfl
  | cons a rest ih =>
    by_cases h1 : usableDims a
    · by_cases h2 : assetPortrait a
      · simp [refresh_favorite, h1, h2, ih, List.filter_cons]
      · simp [refresh_favorite, h1, h2, ih, List.filter_cons]
    · simp [refresh_favorite, h1, ih, List.filter_cons]

theorem refresh_favorite_landscape (l : List AssetSummary) :
    (refresh_favorite l).landscape =
      (l.filter (fun a => usableDims a && !assetPortrait a)).map (fun a => a.id) := by
  induction l with
  | nil => rfl
  | cons a rest ih =>
    by_cases h1 : usableDims a
    · by_cases h2 : assetPortrait a
      · simp [refresh_favorite, h1, h2, ih, List.filter_cons]
      · simp [refresh_favorite, h1, h2, ih, List.filter_cons]
    · simp [refresh_favorite, h1, ih, List.filter_cons]

theorem refresh_checked_eq_some (l : List AssetSummary)
    (h : ∀ a ∈ l, a.exifInfo ≠ none) :
    refresh_checked l = some (refresh_favorite l) := by
  induction l with
  | nil => rfl
  | cons a rest ih =>
    have ha : a.exifInfo ≠ none := h a (List.mem_cons_self a rest)
    obtain ⟨e, he⟩ : ∃ e, a.exifInfo = some e := by
      cases hx : a.exifInfo with
      | none => exact absurd hx ha
      | some e => exact ⟨e, rfl⟩
    have hrest := ih (fun b hb => h b (List.mem_cons_of_mem a hb))
    simp only [refresh_checked, he, hrest, Option.map_some']
    simp [refresh_favorite, usableDims, assetPortrait, he]

theorem refresh_checked_eq_none (l : List AssetSummary) (a : AssetSummary)
    (hmem : a ∈ l) (hnone : a.exifInfo = none) :
    refresh_checked l = none := by
  induction l with
  | nil => cases hmem
  | cons b rest ih =>
    rcases List.mem_cons.mp hmem with h | h
    · subst h
      simp [refresh_checked, hnone]
    · cases hb : b.exifInfo with
      | none => simp [refresh_checked, hb]
      | some e => simp [refresh_checked, hb, ih h]

theorem refresh_checked_some_inv (l : List AssetSummary) (p : Pool)
    (h : refresh_checked l = some p) : p = refresh_favorite l := by
  induction l generalizing p with
  | nil =>
    simp only [refresh_checked] at h
    injection h with h
    exact h.symm
  | cons a rest ih =>
    cases hx : a.exifInfo with
    | none => simp [refresh_checked, hx] at h
    | some e =>
      simp only [refresh_checked, hx] at h
      cases hr : refresh_checked rest with
      | none => simp [hr] at h
      | some q =>
        simp only [hr, Option.map_some'] at h
        have hq := ih q hr
        subst hq
        simp only [refresh_favorite, usableDims, assetPortrait, hx]
        exact (Option.some.inj h).symm

/-- Counterexample for C7: an album-variant refresh over a listing containing
an asset with a missing EXIF block does not complete (the unguarded
`image.get("exifInfo").get(...)` raises, modelled by `none`), contradicting
the claim that every such refresh completes without raising; the person
variant behaves identically. -/
theorem c7_counterexample :
    refresh_album [{ id := "a", exifInfo := none }] = none ∧
    refresh_person [{ id := "a", exifInfo := none }] = none := by
  constructor
  · rfl
  · rfl

/-- C7 (amended): the favorite-variant refresh always completes and places an
asset lacking usable EXIF dimensions only in the unfiltered list (the
partitions hold exactly the ids of assets with usable dimensions); the album
and person variants behave the same only when every returned asset carries an
EXIF block — an asset whose EXIF block is missing makes them raise, leaving
the caches untouched. -/
theorem c7_refresh_unusable_exif :
    (∀ l : List AssetSummary,
        (refresh_favorite l).all = l.map (fun a => a.id) ∧
        (refresh_favorite l).portrait =
          (l.filter (fun a => usableDims a && assetPortrait a)).map (fun a => a.id) ∧
        (refresh_favorite l).landscape =
          (l.filter (fun a => usableDims a && !assetPortrait a)).map (fun a => a.id)) ∧
    (∀ l : List AssetSummary, (∀ a ∈ l, a.exifInfo ≠ none) →
        refresh_album l = some (refresh_favorite l) ∧
        refresh_person l = some (refresh_favorite l)) ∧
    (∀ (l : List AssetSummary) (a : AssetSummary), a ∈ l → a.exifInfo = none →
        refresh_album l = none ∧ refresh_person l = none) := by
  refine ⟨fun l => ⟨refresh_favorite_all l, refresh_favorite_portrait l,
      refresh_favorite_landscape l⟩,
    fun l h => ⟨refresh_checked_eq_some l h, refresh_checked_eq_some l h⟩,
    fun l a hm hn => ⟨refresh_checked_eq_none l a hm hn, refresh_checked_eq_none l a hm hn⟩⟩

/-- Asset used by the C7 witness: EXIF block present but zero width. -/
def assetZeroWidth : AssetSummary :=
  { id := "b",
    exifInfo := some { exifImageWidth := some 0, exifImageHeight := some 2,
                       orientation := none } }

/-- Witness for C7 (amended) at a concrete listing whose only asset has an
EXIF block with a zero width: both checked variants complete and agree with
the favorite partitioning. -/
theorem c7_refresh_unusable_exif_witness :
    refresh_album [assetZeroWidth] = some (refresh_favorite [assetZeroWidth]) ∧
    refresh_person [assetZeroWidth] = some (refresh_favorite [assetZeroWidth]) :=
  c7_refresh_unusable_exif.2.1 [assetZeroWidth] (by decide)

/-- Helper: under distinct ids, an id lies in the mapped filter exactly when
the originating asset satisfies the filter. -/
theorem mem_map_id_filter (l : List AssetSummary) (phi : AssetSummary → Bool)
    (hn : (l.map (fun a => a.id)).Nodup) (a : AssetSummary) (ha : a ∈ l) :
    a.id ∈ (l.filter phi).map (fun b => b.id) ↔ phi a = true := by
  constructor
  · intro h
    obtain ⟨b, hb, hid⟩ := List.mem_map.mp h
    have hbl := (List.mem_filter.mp hb).1
    have hphi := (List.mem_filter.mp hb).2
    have hba : b = a := List.inj_on_of_nodup_map hn hbl ha hid
    rwa [hba] at hphi
  · intro h
    exact List.mem_map.mpr ⟨a, List.mem_filter.mpr ⟨ha, h⟩, rfl⟩

/-- C10: after a refresh over a listing with distinct ids, every asset with
usable EXIF dimensions lands in exactly one of the portrait/landscape
partitions — portrait iff the classifier says so; the two partitions are
disjoint and together cover exactly the usable assets; an asset whose width
equals its height is never classified portrait (so it lands in landscape);
and a completed album-variant refresh produces the same partitioning. -/
theorem c10_partition_invariant (l : List AssetSummary)
    (hn : (l.map (fun a => a.id)).Nodup) :
    (∀ a ∈ l, usableDims a = true →
        ((a.id ∈ (refresh_favorite l).portrait ↔ assetPortrait a = true) ∧
         (a.id ∈ (refresh_favorite l).landscape ↔ assetPortrait a = false))) ∧
    (∀ x, x ∈ (refresh_favorite l).portrait → x ∉ (refresh_favorite l).landscape) ∧
    (∀ x, (x ∈ (refresh_favorite l).portrait ∨ x ∈ (refresh_favorite l).landscape) ↔
        ∃ a ∈ l, usableDims a = true ∧ a.id = x) ∧
    (∀ (a : AssetSummary) (e : ExifInfo), a.exifInfo = some e →
        widthD e = heightD e → assetPortrait a = false) ∧
    (∀ (l2 : List AssetSummary) (p : Pool),
        refresh_album l2 = some p → p = refresh_favorite l2) := by
  refine ⟨?_, ?_, ?_, ?_, fun l2 p h => refresh_checked_some_inv l2 p h⟩
  · intro a ha hu
    constructor
    · rw [refresh_favorite_portrait,
        mem_map_id_filter l (fun b => usableDims b && assetPortrait b) hn a ha]
      simp [hu]
    · rw [refresh_favorite_landscape,
        mem_map_id_filter l (fun b => usableDims b && !assetPortrait b) hn a ha]
      simp [hu]
  · intro x hp hl
    rw [refresh_favorite_portrait] at hp
    rw [refresh_favorite_landscape] at hl
    obtain ⟨b, hb, hbid⟩ := List.mem_map.mp hp
    obtain ⟨c, hc, hcid⟩ := List.mem_map.mp hl
    have hbl := (List.mem_filter.mp hb).1
    have hcl := (List.mem_filter.mp hc).1
    have hbphi := (List.mem_filter.mp hb).2
    have hcphi := (List.mem_filter.mp hc).2
    have hbc : b = c := List.inj_on_of_nodup_map hn hbl hcl (by rw [hbid, hcid])
    subst hbc
    simp only [Bool.and_eq_true, Bool.not_eq_true'] at hbphi hcphi
    rw [hbphi.2] at hcphi
    simp at hcphi
  · intro x
    constructor
    · intro h
      rcases h with h | h
      · rw [refresh_favorite_portrait] at h
        obtain ⟨b, hb, hbid⟩ := List.mem_map.mp h
        have hbl := (List.mem_filter.mp hb).1
        have hbphi := (List.mem_filter.mp hb).2
        simp only [Bool.and_eq_true] at hbphi
        exact ⟨b, hbl, hbphi.1, hbid⟩
      · rw [refresh_favorite_landscape] at h
        obtain ⟨b, hb, hbid⟩ := List.mem_map.mp h
        have hbl := (List.mem_filter.mp hb).1
        have hbphi := (List.mem_filter.mp hb).2
        simp only [Bool.and_eq_true] at hbphi
        exact ⟨b, hbl, hbphi.1, hbid⟩
    · rintro ⟨a, ha, hu, rfl⟩
      by_cases hp : assetPortrait a
      · left
        rw [refresh_favorite_portrait,
          mem_map_id_filter l (fun b => usableDims b && assetPortrait b) hn a ha]
        simp [hu, hp]
      · right
        rw [refresh_favorite_landscape,
          mem_map_id_filter l (fun b => usableDims b && !assetPortrait b) hn a ha]
        simp [hu, hp]
  · intro a e he hwh
    simp only [assetPortrait, he, is_portrait]
    split
    · simp [hwh]
    · simp [hwh]

/-- Sample asset used by the C10 witness: 2x3 pixels, orientation code 1. -/
def assetSampleC10 : AssetSummary :=
  { id := "a",
    exifInfo := some { exifImageWidth := some 2, exifImageHeight := some 3,
                       orientation := some (ExifValue.int 1) } }

/-- Witness for C10 at a concrete one-asset listing. -/
theorem c10_partition_invariant_witness :
    (assetSampleC10.id ∈ (refresh_favorite [assetSampleC10]).portrait ↔
        assetPortrait assetSampleC10 = true) ∧
    (assetSampleC10.id ∈ (refresh_favorite [assetSampleC10]).landscape ↔
        assetPortrait assetSampleC10 = false) :=
  (c10_partition_invariant [assetSampleC10] (by decide)).1 assetSampleC10
    (by decide) (by decide)

/-- Orientation setting of a watched entry as compared against the (missing)
`const.py` constants: `unfiltered` stands for any value other than the
portrait/landscape constants (the source's final `else` branch). -/
inductive OrientationSetting where
  | portrait
  | landscape
  | unfiltered
deriving DecidableEq, Repr

/-- Python `list.pop()` with no index: removes and returns the LAST element;
`none` models the empty-list case (guarded in the source). -/
def popLast : List String → Option (String × List String)
  | [] => none
  | x :: xs =>
    match popLast xs with
    | none => some (x, [])
    | some (r, rest) => some (r, x :: rest)

theorem popLast_eq_none : ∀ (l : List String), popLast l = none → l = [] := by
  intro l h
  cases l with
  | nil => rfl
  | cons x xs =>
    simp only [popLast] at h
    cases hx : popLast xs with
    | none => rw [hx] at h; cases h
    | some p => rw [hx] at h; cases h

theorem popLast_eq_append :
    ∀ (l rest : List String) (r : String), popLast l = some (r, rest) →
      l = rest ++ [r] := by
  intro l
  induction l with
  | nil => intro rest r h; cases h
  | cons x xs ih =>
    intro rest r h
    simp only [popLast] at h
    cases hx : popLast xs with
    | none =>
      rw [hx] at h
      injection h with h
      injection h with h1 h2
      subst h1; subst h2
      rw [popLast_eq_none xs hx]
      rfl
    | some p =>
      rw [hx] at h
      injection h with h
      injection h with h1 h2
      subst h1
      subst h2
      have := ih p.2 p.1 (by rw [hx])
      rw [this]
      rfl

/-- Branch body of `ImmichImageRandom._get_next_asset_id` for each
orientation setting (image.py lines 288-315): pop the last element of the
selected list and remove the popped id from the other list(s) containing it;
Python's guarded `remove` (first occurrence) is `List.erase`. -/
def selectFrom : OrientationSetting → Pool → Option (String × Pool)
  | OrientationSetting.portrait, p =>
    (popLast p.portrait).map fun x =>
      (x.1, { all := if x.1 ∈ p.all then p.all.erase x.1 else p.all,
              portrait := x.2, landscape := p.landscape })
  | OrientationSetting.landscape, p =>
    (popLast p.landscape).map fun x =>
      (x.1, { all := if x.1 ∈ p.all then p.all.erase x.1 else p.all,
              portrait := p.portrait, landscape := x.2 })
  | OrientationSetting.unfiltered, p =>
    (popLast p.all).map fun x =>
      if x.1 ∈ p.portrait then
        (x.1, { all := x.2, portrait := p.portrait.erase x.1,
                landscape := p.landscape })
      else if x.1 ∈ p.landscape then
        (x.1, { all := x.2, portrait := p.portrait,
                landscape := p.landscape.erase x.1 })
      else
        (x.1, { all := x.2, portrait := p.portrait, landscape := p.landscape })

/-- Embeds `ImmichImageRandom._get_next_asset_id` (image.py lines 266-315)
restricted to one pool lifetime: the leading cache check (lines 268-275)
refreshes whenever ANY of the three lists is empty, which ends the lifetime,
so that case (and the per-branch empty re-checks, subsumed by it) return
`none` here; otherwise the branch for the entry's orientation setting runs. -/
def get_next_asset_id_random (o : OrientationSetting) (p : Pool) :
    Option (String × Pool) :=
  if p.all = [] ∨ p.landscape = [] ∨ p.portrait = [] then
    none
  else
    selectFrom o p

/-- Sequence of selections within one pool lifetime: stops at the first
selection that would trigger a refresh (or finds nothing). Returns the
selected ids in order together with the final pool. -/
def selectSeq : List OrientationSetting → Pool → List String × Pool
  | [], p => ([], p)
  | o :: os, p =>
    match get_next_asset_id_random o p with
    | none => ([], p)
    | some (r, p') =>
      let q := selectSeq os p'
      (r :: q.1, q.2)

/-- Invariant of the candidate cache established by a refresh over a listing
with distinct ids: the three lists are duplicate-free, the partitions are
contained in the unfiltered list and are mutually disjoint. -/
def GoodPool (p : Pool) : Prop :=
  p.all.Nodup ∧ p.portrait.Nodup ∧ p.landscape.Nodup ∧
  (∀ x ∈ p.portrait, x ∈ p.all) ∧ (∀ x ∈ p.landscape, x ∈ p.all) ∧
  (∀ x ∈ p.portrait, x ∉ p.landscape)

theorem nodup_append_singleton {rest : List String} {r : String}
    (h : (rest ++ [r]).Nodup) : rest.Nodup ∧ r ∉ rest := by
  rw [List.nodup_append] at h
  exact ⟨h.1, fun hr => h.2.2 hr (List.mem_singleton_self r)⟩


/-- Core step property of one random-pool selection: on a pool satisfying the
cache invariant, a successful selection preserves the invariant, returns an
id of the pool, removes that id from all three lists of the resulting pool,
and only ever shrinks the lists. -/
theorem get_next_asset_id_random_spec (o : OrientationSetting) (p : Pool)
    (r : String) (p' : Pool) (hg : GoodPool p)
    (h : get_next_asset_id_random o p = some (r, p')) :
    GoodPool p' ∧
    (r ∈ p.all ∨ r ∈ p.portrait ∨ r ∈ p.landscape) ∧
    r ∉ p'.all ∧ r ∉ p'.portrait ∧ r ∉ p'.landscape ∧
    (∀ x ∈ p'.all, x ∈ p.all) ∧ (∀ x ∈ p'.portrait, x ∈ p.portrait) ∧
    (∀ x ∈ p'.landscape, x ∈ p.landscape) := by
  obtain ⟨hallN, hpN, hlN, hpsub, hlsub, hdisj⟩ := hg
  rw [get_next_asset_id_random] at h
  by_cases hne : p.all = [] ∨ p.landscape = [] ∨ p.portrait = []
  · rw [if_pos hne] at h
    cases h
  rw [if_neg hne] at h
  cases o with
  | portrait =>
    cases hpop : popLast p.portrait with
    | none => simp [selectFrom, hpop] at h
    | some pr =>
      obtain ⟨r0, rest⟩ := pr
      simp only [selectFrom, hpop, Option.map_some', Option.some.injEq,
        Prod.mk.injEq] at h
      obtain ⟨hreq, hpeq⟩ := h
      subst hreq
      subst hpeq
      have hl : p.portrait = rest ++ [r0] := popLast_eq_append _ _ _ hpop
      obtain ⟨hrestN, hrnr⟩ := nodup_append_singleton (hl ▸ hpN)
      have hrport : r0 ∈ p.portrait := by rw [hl]; simp
      have hrall : r0 ∈ p.all := hpsub r0 hrport
      have hrnl : r0 ∉ p.landscape := hdisj r0 hrport
      have hresport : ∀ x ∈ rest, x ∈ p.portrait := by
        intro x hx; rw [hl]; exact List.mem_append_left _ hx
      simp only [if_pos hrall]
      refine ⟨⟨hallN.erase r0, hrestN, hlN, ?_, ?_, ?_⟩,
        Or.inr (Or.inl hrport), ?_, hrnr, hrnl, ?_, hresport, fun x hx => hx⟩
      · intro x hx
        have hxr : x ≠ r0 := fun hxr => hrnr (hxr ▸ hx)
        exact (List.mem_erase_of_ne hxr).mpr (hpsub x (hresport x hx))
      · intro x hx
        have hxr : x ≠ r0 := fun hxr => hrnl (hxr ▸ hx)
        exact (List.mem_erase_of_ne hxr).mpr (hlsub x hx)
      · intro x hx
        exact hdisj x (hresport x hx)
      · intro hc
        exact ((List.Nodup.mem_erase_iff hallN).mp hc).1 rfl
      · intro x hx
        exact List.erase_subset _ _ hx
  | landscape =>
    cases hpop : popLast p.landscape with
    | none => simp [selectFrom, hpop] at h
    | some pr =>
      obtain ⟨r0, rest⟩ := pr
      simp only [selectFrom, hpop, Option.map_some', Option.some.injEq,
        Prod.mk.injEq] at h
      obtain ⟨hreq, hpeq⟩ := h
      subst hreq
      subst hpeq
      have hl : p.landscape = rest ++ [r0] := popLast_eq_append _ _ _ hpop
      obtain ⟨hrestN, hrnr⟩ := nodup_append_singleton (hl ▸ hlN)
      have hrland : r0 ∈ p.landscape := by rw [hl]; simp
      have hrall : r0 ∈ p.all := hlsub r0 hrland
      have hrnp : r0 ∉ p.portrait := fun hc => hdisj r0 hc hrland
      have hresland : ∀ x ∈ rest, x ∈ p.landscape := by
        intro x hx; rw [hl]; exact List.mem_append_left _ hx
      simp only [if_pos hrall]
      refine ⟨⟨hallN.erase r0, hpN, hrestN, ?_, ?_, ?_⟩,
        Or.inr (Or.inr hrland), ?_, hrnp, hrnr, ?_, fun x hx => hx, hresland⟩
      · intro x hx
        have hxr : x ≠ r0 := fun hxr => hrnp (hxr ▸ hx)
        exact (List.mem_erase_of_ne hxr).mpr (hpsub x hx)
      · intro x hx
        have hxr : x ≠ r0 := fun hxr => hrnr (hxr ▸ hx)
        exact (List.mem_erase_of_ne hxr).mpr (hlsub x (hresland x hx))
      · intro x hx hc
        exact hdisj x hx (hresland x hc)
      · intro hc
        exact ((List.Nodup.mem_erase_iff hallN).mp hc).1 rfl
      · intro x hx
        exact List.erase_subset _ _ hx
  | unfiltered =>
    cases hpop : popLast p.all with
    | none => simp [selectFrom, hpop] at h
    | some pr =>
      obtain ⟨r0, rest⟩ := pr
      simp only [selectFrom, hpop, Option.map_some', Option.some.injEq] at h
      have hl : p.all = rest ++ [r0] := popLast_eq_append _ _ _ hpop
      obtain ⟨hrestN, hrnr⟩ := nodup_append_singleton (hl ▸ hallN)
      have hrall : r0 ∈ p.all := by rw [hl]; simp
      have hresall : ∀ x ∈ rest, x ∈ p.all := by
        intro x hx; rw [hl]; exact List.mem_append_left _ hx
      have hmem_rest : ∀ x ∈ p.all, x ≠ r0 → x ∈ rest := by
        intro x hx hxr
        rw [hl] at hx
        rcases List.mem_append.mp hx with hx | hx
        · exact hx
        · exact absurd (List.mem_singleton.mp hx) hxr
      by_cases hrp : r0 ∈ p.portrait
      · rw [if_pos hrp] at h
        rw [Prod.mk.injEq] at h
        obtain ⟨hreq, hpeq⟩ := h
        subst hreq
        subst hpeq
        have hrnl : r0 ∉ p.landscape := hdisj r0 hrp
        refine ⟨⟨hrestN, hpN.erase r0, hlN, ?_, ?_, ?_⟩,
          Or.inl hrall, hrnr, ?_, hrnl, hresall, ?_, fun x hx => hx⟩
        · intro x hx
          obtain ⟨hxr, hxp⟩ := (List.Nodup.mem_erase_iff hpN).mp hx
          exact hmem_rest x (hpsub x hxp) hxr
        · intro x hx
          have hxr : x ≠ r0 := fun hxr => hrnl (hxr ▸ hx)
          exact hmem_rest x (hlsub x hx) hxr
        · intro x hx
          exact hdisj x (List.erase_subset _ _ hx)
        · intro hc
          exact ((List.Nodup.mem_erase_iff hpN).mp hc).1 rfl
        · intro x hx
          exact List.erase_subset _ _ hx
      · rw [if_neg hrp] at h
        by_cases hrl : r0 ∈ p.landscape
        · rw [if_pos hrl] at h
          rw [Prod.mk.injEq] at h
          obtain ⟨hreq, hpeq⟩ := h
          subst hreq
          subst hpeq
          refine ⟨⟨hrestN, hpN, hlN.erase r0, ?_, ?_, ?_⟩,
            Or.inl hrall, hrnr, hrp, ?_, hresall, fun x hx => hx, ?_⟩
          · intro x hx
            have hxr : x ≠ r0 := fun hxr => hrp (hxr ▸ hx)
            exact hmem_rest x (hpsub x hx) hxr
          · intro x hx
            obtain ⟨hxr, hxl⟩ := (List.Nodup.mem_erase_iff hlN).mp hx
            exact hmem_rest x (hlsub x hxl) hxr
          · intro x hx hc
            exact hdisj x hx (List.erase_subset _ _ hc)
          · intro hc
            exact ((List.Nodup.mem_erase_iff hlN).mp hc).1 rfl
          · intro x hx
            exact List.erase_subset _ _ hx
        · rw [if_neg hrl] at h
          rw [Prod.mk.injEq] at h
          obtain ⟨hreq, hpeq⟩ := h
          subst hreq
          subst hpeq
          refine ⟨⟨hrestN, hpN, hlN, ?_, ?_, hdisj⟩,
            Or.inl hrall, hrnr, hrp, hrl, hresall, fun x hx => hx, fun x hx => hx⟩
          · intro x hx
            have hxr : x ≠ r0 := fun hxr => hrp (hxr ▸ hx)
            exact hmem_rest x (hpsub x hx) hxr
          · intro x hx
            have hxr : x ≠ r0 := fun hxr => hrl (hxr ▸ hx)
            exact hmem_rest x (hlsub x hx) hxr

/-- Induction along a selection sequence: the invariant is maintained, the
returned ids are pairwise distinct, drawn from the starting pool, absent from
the final pool, and the pool only shrinks. -/
theorem selectSeq_spec : ∀ (os : List OrientationSetting) (p : Pool), GoodPool p →
    GoodPool (selectSeq os p).2 ∧
    (selectSeq os p).1.Nodup ∧
    (∀ x ∈ (selectSeq os p).1, x ∈ p.all ∨ x ∈ p.portrait ∨ x ∈ p.landscape) ∧
    (∀ x ∈ (selectSeq os p).2.all, x ∈ p.all) ∧
    (∀ x ∈ (selectSeq os p).2.portrait, x ∈ p.portrait) ∧
    (∀ x ∈ (selectSeq os p).2.landscape, x ∈ p.landscape) ∧
    (∀ x ∈ (selectSeq os p).1,
        x ∉ (selectSeq os p).2.all ∧ x ∉ (selectSeq os p).2.portrait ∧
        x ∉ (selectSeq os p).2.landscape) := by
  intro os
  induction os with
  | nil =>
    intro p hg
    refine ⟨hg, List.nodup_nil, ?_, fun x hx => hx, fun x hx => hx,
      fun x hx => hx, ?_⟩
    · intro x hx; cases hx
    · intro x hx; cases hx
  | cons o os ih =>
    intro p hg
    cases hsel : get_next_asset_id_random o p with
    | none =>
      simp only [selectSeq, hsel]
      refine ⟨hg, List.nodup_nil, ?_, fun x hx => hx, fun x hx => hx,
        fun x hx => hx, ?_⟩
      · intro x hx; cases hx
      · intro x hx; cases hx
    | some rp =>
      obtain ⟨r, p'⟩ := rp
      obtain ⟨hg', hrmem, hrna, hrnp, hrnl, hmona, hmonp, hmonl⟩ :=
        get_next_asset_id_random_spec o p r p' hg hsel
      obtain ⟨ihg, ihnd, ihmem, ihma, ihmp, ihml, ihnot⟩ := ih p' hg'
      simp only [selectSeq, hsel]
      refine ⟨ihg, ?_, ?_, fun x hx => hmona x (ihma x hx),
        fun x hx => hmonp x (ihmp x hx), fun x hx => hmonl x (ihml x hx), ?_⟩
      · refine List.nodup_cons.mpr ⟨?_, ihnd⟩
        intro hc
        rcases ihmem r hc with hx | hx | hx
        · exact hrna hx
        · exact hrnp hx
        · exact hrnl hx
      · intro x hx
        rcases List.mem_cons.mp hx with rfl | hx
        · exact hrmem
        · rcases ihmem x hx with h1 | h1 | h1
          · exact Or.inl (hmona x h1)
          · exact Or.inr (Or.inl (hmonp x h1))
          · exact Or.inr (Or.inr (hmonl x h1))
      · intro x hx
        rcases List.mem_cons.mp hx with rfl | hx
        · exact ⟨fun hc => hrna (ihma x hc), fun hc => hrnp (ihmp x hc),
            fun hc => hrnl (ihml x hc)⟩
        · exact ihnot x hx

/-- Invariant established by a random-pool refresh: over a listing with
pairwise-distinct ids, the three cached lists are duplicate-free, partitions
are contained in the unfiltered list, and are mutually disjoint. -/
theorem goodPool_refresh_favorite (l : List AssetSummary)
    (hn : (l.map (fun a => a.id)).Nodup) : GoodPool (refresh_favorite l) := by
  refine ⟨?_, ?_, ?_, ?_, ?_, ?_⟩
  · rw [refresh_favorite_all]; exact hn
  · rw [refresh_favorite_portrait]
    exact List.Nodup.sublist ((List.filter_sublist l).map _) hn
  · rw [refresh_favorite_landscape]
    exact List.Nodup.sublist ((List.filter_sublist l).map _) hn
  · intro x hx
    rw [refresh_favorite_portrait] at hx
    rw [refresh_favorite_all]
    obtain ⟨b, hb, hbid⟩ := List.mem_map.mp hx
    exact List.mem_map.mpr ⟨b, (List.mem_filter.mp hb).1, hbid⟩
  · intro x hx
    rw [refresh_favorite_landscape] at hx
    rw [refresh_favorite_all]
    obtain ⟨b, hb, hbid⟩ := List.mem_map.mp hx
    exact List.mem_map.mpr ⟨b, (List.mem_filter.mp hb).1, hbid⟩
  · intro x hp hl
    rw [refresh_favorite_portrait] at hp
    rw [refresh_favorite_landscape] at hl
    obtain ⟨b, hb, hbid⟩ := List.mem_map.mp hp
    obtain ⟨c, hc, hcid⟩ := List.mem_map.mp hl
    have hbl := (List.mem_filter.mp hb).1
    have hcl := (List.mem_filter.mp hc).1
    have hbphi := (List.mem_filter.mp hb).2
    have hcphi := (List.mem_filter.mp hc).2
    have hbc : b = c := List.inj_on_of_nodup_map hn hbl hcl (by rw [hbid, hcid])
    subst hbc
    simp only [Bool.and_eq_true, Bool.not_eq_true'] at hbphi hcphi
    rw [hbphi.2] at hcphi
    simp at hcphi

/-- C5: for the random-pool entity, within one pool lifetime (between two
consecutive refreshes) started by a successful refresh over a listing with
pairwise-distinct ids, no asset id is returned twice — the selected ids of
any selection sequence under any orientation filters are pairwise distinct,
and each selected id has been removed from all three lists of the resulting
pool before the next selection. -/
theorem c5_random_pool_no_repeat (listing : List AssetSummary) (p : Pool)
    (hn : (listing.map (fun a => a.id)).Nodup)
    (hr : refresh_random listing = some p) :
    ∀ os : List OrientationSetting,
      (selectSeq os p).1.Nodup ∧
      ∀ x ∈ (selectSeq os p).1,
        x ∉ (selectSeq os p).2.all ∧ x ∉ (selectSeq os p).2.portrait ∧
        x ∉ (selectSeq os p).2.landscape := by
  have hp : p = refresh_favorite listing := refresh_checked_some_inv listing p hr
  subst hp
  have hg := goodPool_refresh_favorite listing hn
  intro os
  obtain ⟨_, hnd, _, _, _, _, hnot⟩ := selectSeq_spec os _ hg
  exact ⟨hnd, hnot⟩

/-- Portrait asset used by the C5 witness. -/
def assetSampleP : AssetSummary :=
  { id := "pa",
    exifInfo := some { exifImageWidth := some 2, exifImageHeight := some 3,
                       orientation := some (ExifValue.int 1) } }

/-- Landscape asset used by the C5 witness. -/
def assetSampleL : AssetSummary :=
  { id := "lb",
    exifInfo := some { exifImageWidth := some 3, exifImageHeight := some 2,
                       orientation := some (ExifValue.int 1) } }

/-- Witness for C5 at a concrete two-asset pool and a two-selection
sequence. -/
theorem c5_random_pool_no_repeat_witness :
    (selectSeq [OrientationSetting.unfiltered, OrientationSetting.unfiltered]
        { all := ["pa", "lb"], portrait := ["pa"], landscape := ["lb"] }).1.Nodup ∧
    ∀ x ∈ (selectSeq [OrientationSetting.unfiltered, OrientationSetting.unfiltered]
        { all := ["pa", "lb"], portrait := ["pa"], landscape := ["lb"] }).1,
      x ∉ (selectSeq [OrientationSetting.unfiltered, OrientationSetting.unfiltered]
        { all := ["pa", "lb"], portrait := ["pa"], landscape := ["lb"] }).2.all ∧
      x ∉ (selectSeq [OrientationSetting.unfiltered, OrientationSetting.unfiltered]
        { all := ["pa", "lb"], portrait := ["pa"], landscape := ["lb"] }).2.portrait ∧
      x ∉ (selectSeq [OrientationSetting.unfiltered, OrientationSetting.unfiltered]
        { all := ["pa", "lb"], portrait := ["pa"], landscape := ["lb"] }).2.landscape :=
  c5_random_pool_no_repeat [assetSampleP, assetSampleL]
    { all := ["pa", "lb"], portrait := ["pa"], landscape := ["lb"] }
    (by decide) (by decide)
    [OrientationSetting.unfiltered, OrientationSetting.unfiltered]

/-- Download endpoints of the hub consumed by the retry loop; byte strings
are `List Nat`, the empty list being the falsy `b""`. -/
structure Hub where
  downloadAsset : String → List Nat
  downloadThumbnail : String → List Nat

/-- Thumbnail-mode constants from the missing `const.py`:
`SETTING_THUMBNAILS_MODE_ORIGINAL` / `_THUMBNAIL` / `_THUMBNAIL_BACKUP`
(user-facing names per spec §4.3: `original`, `thumbnail`,
`thumbnail-with-fallback`). -/
inductive ThumbnailMode where
  | original
  | thumbnail
  | thumbnailBackup
deriving DecidableEq, Repr

/-- Download section of `BaseImmichImage._load_and_cache_next_image` for one
candidate (image.py lines 188-195), literally: `asset_bytes` starts empty;
the original is downloaded only when the mode equals the ORIGINAL constant;
then the thumbnail is downloaded when the mode equals the THUMBNAIL constant
or when it equals the BACKUP constant and `asset_bytes` is still falsy. -/
def downloadFor (hub : Hub) (mode : ThumbnailMode) (assetId : String) : List Nat :=
  let bytes1 : List Nat :=
    if mode = ThumbnailMode.original then hub.downloadAsset assetId else []
  if mode = ThumbnailMode.thumbnail ∨
      (mode = ThumbnailMode.thumbnailBackup ∧ bytes1 = []) then
    hub.downloadThumbnail assetId
  else
    bytes1

/-- Partition selected by the orientation setting in
`BaseImmichImage._get_next_asset_id` (image.py lines 156-174). -/
def choosePartition (o : OrientationSetting) (p : Pool) : List String :=
  match o with
  | OrientationSetting.portrait => p.portrait
  | OrientationSetting.landscape => p.landscape
  | OrientationSetting.unfiltered => p.all

/-- Selection part of `BaseImmichImage._get_next_asset_id` (image.py lines
156-176) over a fresh candidate cache: `random.choice` is modelled by an
externally supplied index `c` reduced modulo the list length; an empty
partition returns `none` ("No assets are available"). -/
def get_next_asset_id (o : OrientationSetting) (p : Pool) (c : Nat) :
    Option String :=
  let l := choosePartition o p
  if l = [] then none
  else l.get? (c % l.length)

/-- Result of one call to `_load_and_cache_next_image`: `success` is the
path that caches the bytes and updates the entity state (lines 201-216),
`noAsset` the `return` on a missing candidate (lines 185-186), and
`outOfFuel` means the loop was still running after the given number of
iterations. -/
inductive LoopResult where
  | success (assetId : String) (bytes : List Nat)
  | noAsset
  | outOfFuel
deriving DecidableEq, Repr

/-- Retry loop of `BaseImmichImage._load_and_cache_next_image` (image.py
lines 178-199) with the candidate cache fixed for the cycle (the 12-hour
staleness refresh does not retrigger within one cycle) and the random stream
`ch` supplying each iteration's choice; one unit of fuel is one loop
iteration; the 1-second `asyncio.sleep` between failed iterations has no
observable effect beyond ordering and is not modelled; the metadata fetched
on success (lines 201-211) is not modelled. -/
def load_and_cache_next_image (hub : Hub) (mode : ThumbnailMode) (p : Pool)
    (o : OrientationSetting) (ch : Nat → Nat) : Nat → Nat → LoopResult
  | 0, _ => LoopResult.outOfFuel
  | fuel + 1, k =>
    match get_next_asset_id o p (ch k) with
    | none => LoopResult.noAsset
    | some aid =>
      if downloadFor hub mode aid = [] then
        load_and_cache_next_image hub mode p o ch fuel (k + 1)
      else
        LoopResult.success aid (downloadFor hub mode aid)

/-- Hub whose thumbnail endpoint returns empty bytes while the original
endpoint returns PNG bytes, for the C1 counterexample. -/
def hubThumbEmpty : Hub :=
  { downloadAsset := fun _ => [137, 80, 78, 71],
    downloadThumbnail := fun _ => [] }

/-- Counterexample for C1: in thumbnail-with-fallback mode, with the
thumbnail endpoint returning empty and the original endpoint returning PNG
bytes for the only candidate, the per-candidate download yields empty (the
original is never fetched) and the cycle does not succeed — after 5
iterations the loop is still retrying, rather than having used the original
bytes. -/
theorem c1_counterexample :
    downloadFor hubThumbEmpty ThumbnailMode.thumbnailBackup "a" = [] ∧
    hubThumbEmpty.downloadAsset "a" = [137, 80, 78, 71] ∧
    load_and_cache_next_image hubThumbEmpty ThumbnailMode.thumbnailBackup
      { all := ["a"], portrait := ["a"], landscape := [] }
      OrientationSetting.unfiltered (fun _ => 0) 5 0 = LoopResult.outOfFuel := by
  refine ⟨rfl, rfl, ?_⟩
  rfl

/-- C1 (amended): when the thumbnail mode is the thumbnail-with-fallback
mode, a download cycle downloads only the thumbnail of the chosen candidate —
the candidate's bytes always equal the thumbnail download result and the
original-resolution endpoint is never consulted (the `not asset_bytes` guard
on the fallback branch is vacuously true because the original branch only
runs in original mode), so a candidate whose thumbnail download returns empty
is treated as a failed candidate (backoff and retry), not served its
original bytes. -/
theorem c1_backup_mode_thumbnail_only :
    ∀ (hub : Hub) (assetId : String),
      downloadFor hub ThumbnailMode.thumbnailBackup assetId =
        hub.downloadThumbnail assetId := by
  intro hub assetId
  rfl

theorem get_next_asset_id_mem (o : OrientationSetting) (p : Pool) (c : Nat)
    (h : choosePartition o p ≠ []) :
    ∃ aid ∈ choosePartition o p, get_next_asset_id o p c = some aid := by
  have hlen : 0 < (choosePartition o p).length := List.length_pos.mpr h
  have hidx : c % (choosePartition o p).length < (choosePartition o p).length :=
    Nat.mod_lt _ hlen
  refine ⟨(choosePartition o p).get ⟨_, hidx⟩, List.get_mem _ _ _, ?_⟩
  simp only [get_next_asset_id, if_neg h]
  exact List.get?_eq_get hidx

/-- Hub all of whose downloads return empty bytes, for the C4 theorems. -/
def hubAllEmpty : Hub :=
  { downloadAsset := fun _ => [], downloadThumbnail := fun _ => [] }

/-- Counterexample for C4: a partition with n = 1 candidate whose download
returns empty. The claim says the loop performs at most n = 1 download
attempt and then stops; instead, after 2 iterations (2 download attempts of
the same candidate, re-chosen with replacement) the loop is still running —
`random.choice` never removes candidates, so the partition is never
exhausted. -/
theorem c4_counterexample :
    load_and_cache_next_image hubAllEmpty ThumbnailMode.original
      { all := ["a"], portrait := ["a"], landscape := [] }
      OrientationSetting.unfiltered (fun _ => 0) 2 0 = LoopResult.outOfFuel := by
  rfl

/-- C4 (amended): when the chosen candidate's download returns no bytes, the
engine backs off and re-picks a random candidate from the same partition —
possibly the same one, since candidates are never removed. The loop
terminates with "no asset" only when the chosen partition is empty at
selection time; if the partition is non-empty and every candidate's download
returns empty, the loop never terminates (it is still running after every
finite number of iterations), so the cycle never updates the entity's image
state in that case. -/
theorem c4_retry_loop_behavior (hub : Hub) (mode : ThumbnailMode) (p : Pool)
    (o : OrientationSetting) (ch : Nat → Nat) :
    (choosePartition o p = [] →
        ∀ (fuel k : Nat),
          load_and_cache_next_image hub mode p o ch (fuel + 1) k =
            LoopResult.noAsset) ∧
    (choosePartition o p ≠ [] →
        (∀ aid ∈ choosePartition o p, downloadFor hub mode aid = []) →
        ∀ (fuel k : Nat),
          load_and_cache_next_image hub mode p o ch fuel k =
            LoopResult.outOfFuel) := by
  constructor
  · intro hemp fuel k
    simp [load_and_cache_next_image, get_next_asset_id, hemp]
  · intro hne hall fuel
    induction fuel with
    | zero => intro k; rfl
    | succ n ih =>
      intro k
      obtain ⟨aid, hmem, hsel⟩ := get_next_asset_id_mem o p (ch k) hne
      simp only [load_and_cache_next_image, hsel]
      rw [if_pos (hall aid hmem)]
      exact ih (k + 1)

/-- Witness for C4 (amended): with an empty partition the loop ends with "no
asset" after the first selection; with a non-empty partition of all-empty
downloads it is still running after 7 iterations. -/
theorem c4_retry_loop_behavior_witness :
    load_and_cache_next_image hubAllEmpty ThumbnailMode.original
      { all := [], portrait := [], landscape := [] }
      OrientationSetting.unfiltered (fun _ => 0) 1 0 = LoopResult.noAsset ∧
    load_and_cache_next_image hubAllEmpty ThumbnailMode.original
      { all := ["a"], portrait := ["a"], landscape := [] }
      OrientationSetting.unfiltered (fun _ => 0) 7 0 = LoopResult.outOfFuel :=
  ⟨(c4_retry_loop_behavior hubAllEmpty ThumbnailMode.original
      { all := [], portrait := [], landscape := [] }
      OrientationSetting.unfiltered (fun _ => 0)).1 rfl 0 0,
   (c4_retry_loop_behavior hubAllEmpty ThumbnailMode.original
      { all := ["a"], portrait := ["a"], landscape := [] }
      OrientationSetting.unfiltered (fun _ => 0)).2 (by decide) (by decide) 7 0⟩

/-- Image entity reference held by a device record; only the field the tick
reads (`last_updated`) is modelled. -/
structure ImageRef where
  lastUpdated : Int
deriving DecidableEq, Repr

/-- Device record as iterated by the tick (`self.devices.values()`); the
thumbnail/orientation fields merely parametrize the refresh call and are
omitted; `image = none` models a record whose image entity was never
registered (`update_device` initializes the field to `None`). -/
structure DeviceRecord where
  key : String
  image : Option ImageRef
  interval : String
deriving DecidableEq, Repr

/-- Result of one tick: `completed` with the keys refreshed in order;
`attrError` models the AttributeError raised by reading `last_updated` on a
missing image entity; `refreshError` models an exception raised inside a
record's `async_update`. Both errors propagate out of the tick, carrying the
keys refreshed before the stop. -/
inductive TickResult where
  | completed (refreshed : List String)
  | attrError (refreshed : List String) (atKey : String)
  | refreshError (refreshed : List String) (atKey : String)
deriving DecidableEq, Repr

def prependRefreshed (k : String) : TickResult → TickResult
  | TickResult.completed l => TickResult.completed (k :: l)
  | TickResult.attrError l e => TickResult.attrError (k :: l) e
  | TickResult.refreshError l e => TickResult.refreshError (k :: l) e

/-- Embeds `ImmichCoordinator._async_update_data` (coordinator.py lines
158-169): for each record in order, read `last_updated` off the image entity
(raising if it is missing), look the interval key up in the interval map
(skipping the record if unmapped), and when the elapsed time exceeds the
mapped seconds run the refresh, whose failure (per the `raises` oracle)
propagates immediately. `intervalMap` abstracts `SETTING_INTERVAL_MAP` from
the missing const.py. -/
def async_update_data (intervalMap : String → Option Int) (now : Int)
    (raises : String → Bool) : List DeviceRecord → TickResult
  | [] => TickResult.completed []
  | d :: rest =>
    match d.image with
    | none => TickResult.attrError [] d.key
    | some img =>
      match intervalMap d.interval with
      | none => async_update_data intervalMap now raises rest
      | some iv =>
        if now - img.lastUpdated > iv then
          if raises d.key then TickResult.refreshError [] d.key
          else prependRefreshed d.key (async_update_data intervalMap now raises rest)
        else
          async_update_data intervalMap now raises rest

/-- Keys of the records that are due for a refresh in this tick. -/
def dueKeys (intervalMap : String → Option Int) (now : Int) :
    List DeviceRecord → List String
  | [] => []
  | d :: rest =>
    match d.image with
    | none => []
    | some img =>
      match intervalMap d.interval with
      | none => dueKeys intervalMap now rest
      | some iv =>
        if now - img.lastUpdated > iv then d.key :: dueKeys intervalMap now rest
        else dueKeys intervalMap now rest

/-- Interval map sending "medium" to 10 seconds, for the C2 theorems. -/
def mapMedium : String → Option Int := fun s => if s = "medium" then some 10 else none

/-- Counterexample for C2: (a) a failing refresh of the first record aborts
the tick with no further record refreshed (the claim says the second, due
record is still refreshed); (b) a record without a registered image entity
is examined and crashes the tick (the claim says such records are not
examined). -/
theorem c2_counterexample :
    async_update_data mapMedium 100 (fun k => k == "d1")
      [{ key := "d1", image := some { lastUpdated := 0 }, interval := "medium" },
       { key := "d2", image := some { lastUpdated := 0 }, interval := "medium" }] =
      TickResult.refreshError [] "d1" ∧
    async_update_data mapMedium 100 (fun _ => false)
      [{ key := "d0", image := none, interval := "medium" },
       { key := "d2", image := some { lastUpdated := 0 }, interval := "medium" }] =
      TickResult.attrError [] "d0" := by
  constructor
  · rfl
  · rfl

/-- C2 (amended): the tick visits every device record in order — a record
without a registered image reference makes it raise an attribute error at
once, and a raised exception in a due record's refresh aborts the tick
immediately, so no later record is checked or refreshed in that tick; only
when every record has a registered image and no refresh raises does the tick
complete, refreshing exactly the due records (unmapped interval keys are
skipped). -/
theorem c2_tick_isolation (intervalMap : String → Option Int) (now : Int)
    (raises : String → Bool) :
    (∀ (d : DeviceRecord) (rest : List DeviceRecord), d.image = none →
        async_update_data intervalMap now raises (d :: rest) =
          TickResult.attrError [] d.key) ∧
    (∀ (d : DeviceRecord) (img : ImageRef) (iv : Int) (rest : List DeviceRecord),
        d.image = some img → intervalMap d.interval = some iv →
        now - img.lastUpdated > iv → raises d.key = true →
        async_update_data intervalMap now raises (d :: rest) =
          TickResult.refreshError [] d.key) ∧
    (∀ ds : List DeviceRecord, (∀ d ∈ ds, d.image ≠ none) →
        (∀ d ∈ ds, raises d.key = false) →
        async_update_data intervalMap now raises ds =
          TickResult.completed (dueKeys intervalMap now ds)) := by
  refine ⟨?_, ?_, ?_⟩
  · intro d rest him
    simp [async_update_data, him]
  · intro d img iv rest him hiv hdue hr
    simp [async_update_data, him, hiv, hdue, hr]
  · intro ds
    induction ds with
    | nil => intro _ _; rfl
    | cons d rest ih =>
      intro himg hr
      have hd : d.image ≠ none := himg d (List.mem_cons_self d rest)
      obtain ⟨img, him⟩ : ∃ i, d.image = some i := by
        cases hx : d.image with
        | none => exact absurd hx hd
        | some i => exact ⟨i, rfl⟩
      have hrest := ih (fun b hb => himg b (List.mem_cons_of_mem d hb))
        (fun b hb => hr b (List.mem_cons_of_mem d hb))
      have hdk : raises d.key = false := hr d (List.mem_cons_self d rest)
      cases hiv : intervalMap d.interval with
      | none => simp [async_update_data, dueKeys, him, hiv, hrest]
      | some iv =>
        by_cases hdue : now - img.lastUpdated > iv
        · simp [async_update_data, dueKeys, him, hiv, hdue, hdk, hrest,
            prependRefreshed]
        · simp [async_update_data, dueKeys, him, hiv, hdue, hrest]

/-- Witness for C2 (amended): a due record whose refresh raises aborts the
tick with nothing refreshed. -/
theorem c2_tick_isolation_witness :
    async_update_data mapMedium 100 (fun k => k == "d1")
      [{ key := "d1", image := some { lastUpdated := 0 }, interval := "medium" }] =
      TickResult.refreshError [] "d1" :=
  (c2_tick_isolation mapMedium 100 (fun k => k == "d1")).2.1
    { key := "d1", image := some { lastUpdated := 0 }, interval := "medium" }
    { lastUpdated := 0 } 10 [] rfl (by decide) (by decide) (by decide)

/-- Snapshot owned by the coordinator (`self.albums` / `self.persons`): an
insertion-ordered dict from remote id to metadata (metadata abstracted as a
number), plus the `*_last_update` timestamp. -/
structure SnapshotState where
  snapshot : List (String × Nat)
  lastUpdate : Int
deriving DecidableEq, Repr

/-- Python `dict.update({k: v})` on an insertion-ordered dict: replace the
value in place if the key exists, else append the pair. -/
def dictUpdate (d : List (String × Nat)) (k : String) (v : Nat) :
    List (String × Nat) :=
  if d.any (fun kv => kv.1 = k) then
    d.map (fun kv => if kv.1 = k then (k, v) else kv)
  else
    d ++ [(k, v)]

/-- Embeds `ImmichCoordinator.update_albums` (coordinator.py lines 47-56):
no-op when the snapshot dict is non-empty and younger than
`ALBUM_REFRESH_INTERVAL` minutes (`minutes`, from the missing const.py,
spec: ~30); otherwise `dict.update` every returned album into the snapshot
and stamp the time. -/
def update_albums (st : SnapshotState) (now : Int) (minutes : Int)
    (remote : List (String × Nat)) : SnapshotState :=
  if st.snapshot ≠ [] ∧ now - st.lastUpdate < minutes * 60 then st
  else
    { snapshot := remote.foldl (fun d kv => dictUpdate d kv.1 kv.2) st.snapshot,
      lastUpdate := now }

/-- Embeds `ImmichCoordinator.update_persons` (coordinator.py lines 58-67),
identical in structure to `update_albums` with its own timer. -/
def update_persons (st : SnapshotState) (now : Int) (minutes : Int)
    (remote : List (String × Nat)) : SnapshotState :=
  if st.snapshot ≠ [] ∧ now - st.lastUpdate < minutes * 60 then st
  else
    { snapshot := remote.foldl (fun d kv => dictUpdate d kv.1 kv.2) st.snapshot,
      lastUpdate := now }

/-- Counterexample for C3: a stale one-album snapshot `{a1}` refreshed from a
remote listing `[a2]` keeps the key `a1`, which is absent from the remote
response — the snapshot's key set after the refresh is not the remote id
set, so the refresh is a merge, not a wholesale replacement. -/
theorem c3_counterexample :
    "a1" ∈ ((update_albums { snapshot := [("a1", 0)], lastUpdate := 0 }
        100000 30 [("a2", 5)]).snapshot.map Prod.fst) ∧
    "a1" ∉ (([("a2", 5)] : List (String × Nat)).map Prod.fst) := by
  constructor
  · decide
  · decide

theorem dictUpdate_keys_mem (d : List (String × Nat)) (k : String) (v : Nat)
    (x : String) :
    x ∈ (dictUpdate d k v).map Prod.fst ↔ x ∈ d.map Prod.fst ∨ x = k := by
  unfold dictUpdate
  by_cases hp : d.any (fun kv => kv.1 = k)
  · rw [if_pos hp]
    have hkeys : ((d.map fun kv => if kv.1 = k then (k, v) else kv).map Prod.fst)
        = d.map Prod.fst := by
      rw [List.map_map]
      apply List.map_congr_left
      intro kv _
      by_cases h : kv.1 = k
      · simp [h]
      · simp [h]
    rw [hkeys]
    constructor
    · exact Or.inl
    · rintro (h | rfl)
      · exact h
      · obtain ⟨kv, hkv, hfk⟩ := List.any_eq_true.mp hp
        have hk : kv.1 = x := of_decide_eq_true hfk
        exact List.mem_map.mpr ⟨kv, hkv, hk⟩
  · rw [if_neg hp]
    rw [List.map_append]
    simp [List.mem_append]

theorem foldl_dictUpdate_keys_mem (remote : List (String × Nat)) :
    ∀ (d : List (String × Nat)) (x : String),
      x ∈ ((remote.foldl (fun acc kv => dictUpdate acc kv.1 kv.2) d).map Prod.fst) ↔
        x ∈ d.map Prod.fst ∨ x ∈ remote.map Prod.fst := by
  induction remote with
  | nil => intro d x; simp
  | cons kv rest ih =>
    intro d x
    simp only [List.foldl_cons]
    rw [ih]
    rw [dictUpdate_keys_mem]
    simp only [List.map_cons, List.mem_cons]
    tauto

/-- C3 (amended): `update_albums` (and symmetrically `update_persons`) is a
no-op when a non-empty snapshot exists whose age is below the refresh
interval; otherwise it MERGES the remote listing into the snapshot by
per-id dict update — after the refresh the snapshot's key set is the union
of the old keys and the remote ids, so entries absent from the remote
response survive the refresh (no wholesale replacement). -/
theorem c3_snapshot_merge (st : SnapshotState) (now minutes : Int)
    (remote : List (String × Nat)) :
    (st.snapshot ≠ [] → now - st.lastUpdate < minutes * 60 →
        update_albums st now minutes remote = st ∧
        update_persons st now minutes remote = st) ∧
    (¬ (st.snapshot ≠ [] ∧ now - st.lastUpdate < minutes * 60) →
        (∀ x, x ∈ ((update_albums st now minutes remote).snapshot.map Prod.fst) ↔
            x ∈ st.snapshot.map Prod.fst ∨ x ∈ remote.map Prod.fst) ∧
        (∀ x, x ∈ ((update_persons st now minutes remote).snapshot.map Prod.fst) ↔
            x ∈ st.snapshot.map Prod.fst ∨ x ∈ remote.map Prod.fst)) := by
  constructor
  · intro hne hfresh
    constructor
    · unfold update_albums
      rw [if_pos ⟨hne, hfresh⟩]
    · unfold update_persons
      rw [if_pos ⟨hne, hfresh⟩]
  · intro hcond
    constructor
    · intro x
      unfold update_albums
      rw [if_neg hcond]
      exact foldl_dictUpdate_keys_mem remote st.snapshot x
    · intro x
      unfold update_persons
      rw [if_neg hcond]
      exact foldl_dictUpdate_keys_mem remote st.snapshot x

/-- Witness for C3 (amended) at the counterexample's input: the refreshed
key set is the union of old and remote keys. -/
theorem c3_snapshot_merge_witness :
    ∀ x, x ∈ ((update_albums { snapshot := [("a1", 0)], lastUpdate := 0 }
        100000 30 [("a2", 5)]).snapshot.map Prod.fst) ↔
      x ∈ ([("a1", 0)] : List (String × Nat)).map Prod.fst ∨
      x ∈ ([("a2", 5)] : List (String × Nat)).map Prod.fst :=
  ((c3_snapshot_merge { snapshot := [("a1", 0)], lastUpdate := 0 } 100000 30
      [("a2", 5)]).2 (by decide)).1
